import Mathlib

/- Verification of the core of Colony_detection_SAM_2.1 against its
specification.  The development shallowly embeds the two source files

  * src/colony_analysis/core/sam_model.py      (class SAMModel)
  * src/colony_analysis/analysis/colony.py     (class ColonyAnalyzer)

into Lean.  External collaborators (the pretrained segmentation model,
the feature extractors, the scoring system) are modelled as function
parameters ("oracles"), exactly at the call boundary the Python code
uses.  Python floats that only flow through the code opaquely are
modelled as rationals; machine-precision effects play no role in any
claim proved here.  numpy uint8 arithmetic is modelled explicitly where
it matters (find_diffusion_zone). -/

/-! ## Python dict model

Python dicts keyed by strings are modelled as association lists in
insertion order.  Assignment d[k] = v replaces the value of an existing
key in place and appends a fresh key at the end; d.update(other) folds
assignment over the entries of other; d.get / d[k] look a key up. -/

def dictInsert {α : Type} (d : List (String × α)) (k : String) (v : α) :
    List (String × α) :=
  if d.any (fun p => p.1 == k) then
    d.map (fun p => if p.1 == k then (k, v) else p)
  else d ++ [(k, v)]

def dictUpdate {α : Type} (d other : List (String × α)) : List (String × α) :=
  other.foldl (fun acc p => dictInsert acc p.1 p.2) d

def dictGet {α : Type} (d : List (String × α)) (k : String) : Option α :=
  (d.find? (fun p => p.1 == k)).map (fun p => p.2)

/-! ## Images

A numpy image array as consumed by SAMModel: either 2-dimensional
(channels = none, pixel values addressed with channel 0) or
3-dimensional with a channel count.  Pixel payloads are natural
numbers; only the shape structure matters to the embedded code. -/

structure PlateImage where
  height : Nat
  width : Nat
  channels : Option Nat
  pix : Nat → Nat → Nat → Nat

/-- SAMModel._preprocess_image: 2-dim images are expanded to 3 channels
(cv2.COLOR_GRAY2RGB replicates the single plane), 4-channel images drop
the alpha plane (cv2.COLOR_RGBA2RGB keeps the first three planes), and
images with more than 3 channels are sliced to their first 3. -/
def preprocess_image (image : PlateImage) : PlateImage :=
  match image.channels with
  | none => { image with channels := some 3, pix := fun y x _ => image.pix y x 0 }
  | some c =>
    if c = 4 then { image with channels := some 3 }
    else if c > 3 then { image with channels := some 3 }
    else image

/-! ## Boolean masks -/

structure BMask where
  height : Nat
  width : Nat
  pix : Nat → Nat → Bool

def emptyBMask (h w : Nat) : BMask := ⟨h, w, fun _ _ => false⟩

/-- One application of cv2.dilate with the all-ones 3x3 kernel: a pixel
of the output is set when any pixel of the input within Chebyshev
distance 1 (and inside the array) is set.  Pixels outside the array
domain are reported as background. -/
def dilate1 (m : BMask) : BMask :=
  ⟨m.height, m.width, fun y x =>
    decide (y < m.height) && decide (x < m.width) &&
      (List.range m.height).any (fun j =>
        (List.range m.width).any (fun i =>
          decide (y ≤ j + 1) && decide (j ≤ y + 1) &&
          decide (x ≤ i + 1) && decide (i ≤ x + 1) && m.pix j i))⟩

/-- cv2.dilate with an iteration count. -/
def dilateIter (m : BMask) : Nat → BMask
  | 0 => m
  | n + 1 => dilate1 (dilateIter m n)

/-- Iteration count used by find_diffusion_zone:
max(1, expansion_pixels // 3), with Python floor division. -/
def diffusionIterations (expansion_pixels : Int) : Nat :=
  (max 1 (Int.fdiv expansion_pixels 3)).toNat

/-- A Bool pixel cast with numpy astype(np.uint8). -/
def toU8 (b : Bool) : Nat := if b then 1 else 0

/-- numpy uint8 subtraction (wraps modulo 256); both embedded operands
are mask pixels, hence below 256. -/
def u8sub (a b : Nat) : Nat := (a + 256 - b) % 256

/-- SAMModel.find_diffusion_zone: dilate the colony mask
max(1, expansion_pixels // 3) times with a 3x3 ones kernel, subtract
the original mask in uint8 arithmetic and threshold the difference with
> 0.  The image argument is never read by the source code. -/
def find_diffusion_zone (_image : PlateImage) (colony_mask : BMask)
    (expansion_pixels : Int := 15) : BMask :=
  let iterations := diffusionIterations expansion_pixels
  let expanded := dilateIter colony_mask iterations
  ⟨colony_mask.height, colony_mask.width, fun y x =>
    decide (u8sub (toU8 (expanded.pix y x)) (toU8 (colony_mask.pix y x)) > 0)⟩

/-! ## Automatic segmentation -/

/-- One entry of the list returned by SamAutomaticMaskGenerator.generate:
the fields read by segment_everything. -/
structure MaskCandidate where
  segmentation : BMask
  stability_score : Rat
  area : Int

/-- SAMModel.segment_everything: run the (external) automatic mask
generator on the preprocessed image, then keep each candidate unless its
area is below min_area or above a set max_area, collecting masks and
stability scores in generator order.  The source loop appends to two
lists; it is embedded as a fold over the candidate list. -/
def segment_everything (generator : PlateImage → List MaskCandidate)
    (image : PlateImage) (min_area : Int := 25)
    (max_area : Option Int := none) : List BMask × List Rat :=
  let img := preprocess_image image
  let masks_data := generator img
  masks_data.foldl
    (fun acc md =>
      if md.area < min_area then acc
      else
        match max_area with
        | some m =>
          if md.area > m then acc
          else (acc.1 ++ [md.segmentation], acc.2 ++ [md.stability_score])
        | none => (acc.1 ++ [md.segmentation], acc.2 ++ [md.stability_score]))
    ([], [])

/-! ## Prompted segmentation -/

/-- The external SamPredictor.predict capability (set_image followed by
predict with multimask_output): given the image and optional point
coordinates, point labels and a box, it returns parallel candidate
masks and scores (modelled zipped; the unused logits are dropped) or
fails with an exception message. -/
abbrev Predictor :=
  PlateImage → Option (List (List Int)) → Option (List Int) →
    Option (List Int) → Except String (List (BMask × Rat))

/-- np.argmax selection over parallel (mask, score) pairs: the pair with
the highest score, ties resolved to the earliest, none on an empty
list (np.argmax raises there). -/
def argmaxPair : List (BMask × Rat) → Option (BMask × Rat)
  | [] => none
  | r :: rs => some (rs.foldl (fun best x => if x.2 > best.2 then x else best) r)

/-- SAMModel.segment_with_prompts: preprocess the image, convert falsy
(absent or empty) point lists to an absent argument as the source
"np.array(points) if points else None" does, call the predictor and
return the best-scoring mask with its score. -/
def segment_with_prompts (predictor : Predictor) (image : PlateImage)
    (points : Option (List (List Int)) := none)
    (point_labels : Option (List Int) := none)
    (boxes : Option (List Int) := none) : Except String (BMask × Rat) :=
  let img := preprocess_image image
  let point_coords :=
    match points with
    | some (p :: ps) => some (p :: ps)
    | _ => none
  let plabels :=
    match point_labels with
    | some (l :: ls) => some (l :: ls)
    | _ => none
  match predictor img point_coords plabels boxes with
  | Except.error m => Except.error m
  | Except.ok results =>
    match argmaxPair results with
    | none => Except.error "attempt to get argmax of an empty sequence"
    | some best => Except.ok best

/-! ## Grid segmentation -/

/-- Row letter of a grid row: chr(65 + r). -/
def rowLabel (r : Nat) : String := String.singleton (Char.ofNat (65 + r))

/-- Well-style label of a grid cell: row letter followed by the 1-based
column number. -/
def cellLabel (r c : Nat) : String := rowLabel r ++ toString (c + 1)

/-- The bounding box segment_grid builds for the cell in row r and
column c: [x1, y1, x2, y2] from the fractional cell size, with the
padding inset; Python float geometry (height/rows etc.) is carried out
over the rationals and int() truncation of these non-negative values is
the rational floor. -/
def gridCellBox (height width rows cols : Nat) (padding : Rat) (r c : Nat) : List Int :=
  let cellH : Rat := (height : Rat) / (rows : Rat)
  let cellW : Rat := (width : Rat) / (cols : Rat)
  let padY : Int := (cellH * padding).floor
  let padX : Int := (cellW * padding).floor
  let y1 : Int := ((r : Rat) * cellH).floor + padY
  let y2 : Int := (((r : Rat) + 1) * cellH).floor - padY
  let x1 : Int := ((c : Rat) * cellW).floor + padX
  let x2 : Int := (((c : Rat) + 1) * cellW).floor - padX
  [x1, y1, x2, y2]

/-- The mask recorded by segment_grid for one cell: the best prompted
mask for the cell box on success, an all-background mask of the image
shape when the prompted call raises. -/
def gridCellMask (predictor : Predictor) (img : PlateImage)
    (height width rows cols : Nat) (padding : Rat) (r c : Nat) : BMask :=
  match segment_with_prompts predictor img none none
      (some (gridCellBox height width rows cols padding r c)) with
  | Except.ok best => best.1
  | Except.error _ => emptyBMask height width

/-- SAMModel.segment_grid: preprocess the image, partition it into
rows x cols cells, issue one box-prompted segmentation per cell and
collect one mask and one label per cell; a failing cell contributes an
all-background mask under the same label.  The source loop appends one
mask and one label per iteration in both the success and the failure
branch; it is embedded as a fold over the row-major cell list. -/
def segment_grid (predictor : Predictor) (image : PlateImage)
    (rows : Nat := 8) (cols : Nat := 12) (padding : Rat := 1 / 20) :
    List BMask × List String :=
  let img := preprocess_image image
  let height := img.height
  let width := img.width
  let cells := (List.range rows).flatMap (fun r => (List.range cols).map (fun c => (r, c)))
  cells.foldl
    (fun acc rc =>
      (acc.1 ++ [gridCellMask predictor img height width rows cols padding rc.1 rc.2],
       acc.2 ++ [cellLabel rc.1 rc.2]))
    ([], [])

/-! ## Colony records

The colony record dict of colony.py.  The fields the analyzer code ever
touches are explicit optional fields (a missing key is none); every
other key of the dict lives untouched in the extra field.  Image and
mask payloads are opaque handles for the analyzer (they are only ever
forwarded to the external extractors and to the SAM model), and the
masks stored back by advanced analysis are likewise opaque handles. -/

inductive PyVal where
  | str (s : String)
  | num (n : Int)
deriving DecidableEq

abbrev ImgData := Nat
abbrev MaskData := Nat
abbrev Dict := List (String × PyVal)

structure Colony where
  id : Option String
  img : Option ImgData
  mask : Option MaskData
  features : Option Dict
  scores : Option Dict
  phenotype : Option Dict
  quality_score : Option Rat
  cross_boundary : Option Bool
  overlapping_wells : Option (List String)
  advanced_masks : Option (List (String × MaskData))
  extra : List (String × PyVal)
deriving DecidableEq

/-- The logging calls the analyzer issues, abstracted to structured
events (the concrete Chinese message texts carry no extra content). -/
inductive LogEntry where
  | warnNoColonies
  | errorAnalyze (i : Nat) (msg : String)
  | infoDone (n : Nat)
  | warnMissingData (id : String)
  | warnLowQuality (id : String)
  | errorAdvanced (msg : String)
deriving DecidableEq

/-- A ColonyAnalyzer instance: the externally supplied capabilities it
was wired with at construction time.  extractors is the configured
FeatureExtractor list (each call may raise), calculate_scores and
classify_phenotype are the ScoringSystem calls (each may raise), hasSam
records whether self.sam_model is not None, and advCompute is the
find_diffusion_zone call together with the numpy area/ratio
computation of _perform_advanced_analysis (the resulting diffusion
mask handle and the float ratio value); a failure anywhere inside that
try block surfaces as its error case. -/
structure Analyzer where
  extractors : List (ImgData → MaskData → Except String Dict)
  calculate_scores : Dict → Except String Dict
  classify_phenotype : Dict → Except String Dict
  hasSam : Bool
  advCompute : ImgData → MaskData → Except String (MaskData × PyVal)

/-- The three defensive existence checks opening analyze_colony: the
features, scores and phenotype keys are created as empty dicts when
absent and left as they are when present. -/
def ensureDicts (c : Colony) : Colony :=
  { c with features := some (c.features.getD []),
           scores := some (c.scores.getD []),
           phenotype := some (c.phenotype.getD []) }

/-- The feature-extraction loop of analyze_colony: each extractor in
turn is applied to the image and mask and its output merged into the
features dict; an extractor exception stops the loop, keeping the
merges already performed (the dict was mutated in place). -/
def extractLoop (exs : List (ImgData → MaskData → Except String Dict))
    (img : ImgData) (mask : MaskData) (feats : Dict) : Dict × Option String :=
  match exs with
  | [] => (feats, none)
  | ex :: rest =>
    match ex img mask with
    | Except.error m => (feats, some m)
    | Except.ok f => extractLoop rest img mask (dictUpdate feats f)

/-- ColonyAnalyzer._perform_advanced_analysis: compute the diffusion
mask and ratio, store them under advanced_masks and features; the whole
body is wrapped in try/except, so a failure only logs and leaves the
record as it was. -/
def perform_advanced_analysis (A : Analyzer) (colony : Colony) :
    Colony × List LogEntry :=
  match colony.img, colony.mask with
  | some img, some mask =>
    match A.advCompute img mask with
    | Except.error m => (colony, [LogEntry.errorAdvanced m])
    | Except.ok dr =>
      let c1 := { colony with
        advanced_masks := some (dictInsert (colony.advanced_masks.getD []) "diffusion" dr.1) }
      ({ c1 with
         features := some (dictInsert (c1.features.getD []) "metabolite_diffusion_ratio" dr.2) },
       [])
  | _, _ => (colony, [LogEntry.errorAdvanced "KeyError"])

/-- The quality check of analyze_colony: read quality_score with
default 0.5; when it is below 0.3 the code logs a warning whose message
interpolates colony[id] with bracket access, which raises KeyError when
the record has no id field.  Returns the log entries and the optional
raised error. -/
def qualityStep (c : Colony) : List LogEntry × Option String :=
  if c.quality_score.getD (1 / 2 : Rat) < (3 / 10 : Rat) then
    match c.id with
    | some i => ([LogEntry.warnLowQuality i], none)
    | none => ([], some "KeyError: id")
  else ([], none)

/-- The cross-boundary step closing analyze_colony: when the record is
flagged cross_boundary (default false), phenotype gains special_case =
cross_boundary and affected_wells = the overlapping wells joined with
comma-space, or the literal none when the sequence is empty or
absent. -/
def crossBoundaryStep (c : Colony) : Colony :=
  if c.cross_boundary.getD false then
    let wells := c.overlapping_wells.getD []
    let p1 := dictInsert (c.phenotype.getD []) "special_case" (PyVal.str "cross_boundary")
    let p2 := dictInsert p1 "affected_wells"
      (PyVal.str (if wells.isEmpty then "none" else String.intercalate ", " wells))
    { c with phenotype := some p2 }
  else c

/-- ColonyAnalyzer.analyze_colony.  The record is mutated in place by
the Python code, so the embedding returns the record state reached when
the call finishes or raises, the log entries it produced, and the
optional raised error message. -/
def analyze_colony (A : Analyzer) (colony : Colony) (advanced : Bool := false) :
    Colony × List LogEntry × Option String :=
  let c := ensureDicts colony
  match c.img, c.mask with
  | some img, some mask =>
    let fe := extractLoop A.extractors img mask (c.features.getD [])
    let c1 := { c with features := some fe.1 }
    match fe.2 with
    | some m => (c1, [], some m)
    | none =>
      match A.calculate_scores fe.1 with
      | Except.error m => (c1, [], some m)
      | Except.ok sc =>
        let c2 := { c1 with scores := some (dictUpdate (c1.scores.getD []) sc) }
        match A.classify_phenotype fe.1 with
        | Except.error m => (c2, [], some m)
        | Except.ok ph =>
          let c3 := { c2 with phenotype := some (dictUpdate (c2.phenotype.getD []) ph) }
          let ar := if advanced && A.hasSam then perform_advanced_analysis A c3 else (c3, [])
          match (qualityStep ar.1).2 with
          | some m => (ar.1, ar.2 ++ (qualityStep ar.1).1, some m)
          | none => (crossBoundaryStep ar.1, ar.2 ++ (qualityStep ar.1).1, none)
  | _, _ => (c, [LogEntry.warnMissingData (c.id.getD "unknown")], none)

/-- The batch loop of ColonyAnalyzer.analyze, carrying the enumeration
index: each record is analyzed; on success the returned record is
appended, on an exception the error is logged with the index and the
caught record object - the same dict analyze_colony mutated in place -
is appended. -/
def analyzeLoop (A : Analyzer) (adv : Bool) : Nat → List Colony →
    List Colony × List LogEntry
  | _, [] => ([], [])
  | i, colony :: rest =>
    let r := analyze_colony A colony adv
    let entry := match r.2.2 with
      | none => []
      | some m => [LogEntry.errorAnalyze i m]
    let tail := analyzeLoop A adv (i + 1) rest
    (r.1 :: tail.1, (r.2.1 ++ entry) ++ tail.2)

/-- ColonyAnalyzer.analyze: an empty batch returns empty with a
warning; otherwise every record is processed by the indexed loop and a
completion message is logged. -/
def analyze (A : Analyzer) (colonies : List Colony) (advanced : Bool := false) :
    List Colony × List LogEntry :=
  if colonies.isEmpty then ([], [LogEntry.warnNoColonies])
  else
    let r := analyzeLoop A advanced 0 colonies
    (r.1, r.2 ++ [LogEntry.infoDone r.1.length])

/-! ## Helper lemmas: dict operations -/

theorem find?_replace_hit {α : Type} (k : String) (v : α) :
    ∀ d : List (String × α), d.any (fun p => p.1 == k) = true →
      (d.map (fun p => if p.1 == k then (k, v) else p)).find? (fun p => p.1 == k)
        = some (k, v) := by
  intro d
  induction d with
  | nil => intro h; simp at h
  | cons hd tl ih =>
    intro h
    by_cases h1 : (hd.1 == k) = true
    · rw [List.map_cons, if_pos h1, List.find?_cons_of_pos]
      simp
    · have h2 : tl.any (fun p => p.1 == k) = true := by
        simpa [List.any_cons, h1] using h
      rw [List.map_cons, if_neg h1, List.find?_cons_of_neg _ (by simpa using h1)]
      exact ih h2

theorem find?_replace_miss {α : Type} (k k2 : String) (v : α)
    (hne : (k == k2) = false) :
    ∀ d : List (String × α),
      (d.map (fun p => if p.1 == k then (k, v) else p)).find? (fun p => p.1 == k2)
        = d.find? (fun p => p.1 == k2) := by
  intro d
  induction d with
  | nil => rfl
  | cons hd tl ih =>
    by_cases h1 : (hd.1 == k) = true
    · have hk : hd.1 = k := by simpa using h1
      have h2 : (hd.1 == k2) = false := by rw [hk]; exact hne
      rw [List.map_cons, if_pos h1,
        List.find?_cons_of_neg _ (by simpa using hne),
        List.find?_cons_of_neg _ (by simpa using h2)]
      exact ih
    · by_cases h3 : (hd.1 == k2) = true
      · rw [List.map_cons, if_neg h1,
          @List.find?_cons_of_pos _ (fun q => q.1 == k2) hd _ h3,
          @List.find?_cons_of_pos _ (fun q => q.1 == k2) hd _ h3]
      · rw [List.map_cons, if_neg h1,
          List.find?_cons_of_neg _ (by simpa using h3),
          List.find?_cons_of_neg _ (by simpa using h3)]
        exact ih

theorem find?_no_hit {α : Type} (k : String) :
    ∀ d : List (String × α), d.any (fun p => p.1 == k) = false →
      d.find? (fun p => p.1 == k) = none := by
  intro d h
  rw [List.find?_eq_none]
  intro x hx
  simpa using List.any_eq_false.mp h x hx

theorem dictGet_insert_same {α : Type} (d : List (String × α)) (k : String) (v : α) :
    dictGet (dictInsert d k v) k = some v := by
  unfold dictGet dictInsert
  cases h : d.any (fun p => p.1 == k) with
  | true =>
    rw [if_pos rfl, find?_replace_hit k v d h]
    rfl
  | false =>
    rw [if_neg (by decide), List.find?_append, find?_no_hit k d h]
    simp

theorem dictGet_insert_ne {α : Type} (d : List (String × α)) (k k2 : String) (v : α)
    (hne : (k == k2) = false) :
    dictGet (dictInsert d k v) k2 = dictGet d k2 := by
  unfold dictGet dictInsert
  cases h : d.any (fun p => p.1 == k) with
  | true => rw [if_pos rfl, find?_replace_miss k k2 v hne d]
  | false =>
    rw [if_neg (by decide), List.find?_append]
    have : List.find? (fun p => p.1 == k2) [(k, v)] = none := by
      simp [List.find?, hne]
    rw [this]
    simp

/-! ## Helper lemmas and theorems: segment_everything (claim C3) -/

/-- The area window of the specification: a candidate survives iff its
area is at least min_area and at most a set max_area (no upper bound
when max_area is unset). -/
def keepCandidate (min_area : Int) (max_area : Option Int) (md : MaskCandidate) : Bool :=
  decide (min_area ≤ md.area) &&
    match max_area with
    | none => true
    | some m => decide (md.area ≤ m)

theorem segment_everything_foldl (min_area : Int) (max_area : Option Int) :
    ∀ (l : List MaskCandidate) (acc : List BMask × List Rat),
      l.foldl
        (fun acc md =>
          if md.area < min_area then acc
          else
            match max_area with
            | some m =>
              if md.area > m then acc
              else (acc.1 ++ [md.segmentation], acc.2 ++ [md.stability_score])
            | none => (acc.1 ++ [md.segmentation], acc.2 ++ [md.stability_score]))
        acc
      = (acc.1 ++ (l.filter (keepCandidate min_area max_area)).map
            (fun md => md.segmentation),
         acc.2 ++ (l.filter (keepCandidate min_area max_area)).map
            (fun md => md.stability_score)) := by
  intro l
  induction l with
  | nil => intro acc; simp
  | cons hd tl ih =>
    intro acc
    by_cases h1 : hd.area < min_area
    · have hk : keepCandidate min_area max_area hd = false := by
        simp [keepCandidate, not_le.mpr h1]
      simp only [List.foldl_cons, if_pos h1, List.filter_cons, hk]
      exact ih acc
    · have hge : min_area ≤ hd.area := not_lt.mp h1
      rcases max_area with _ | m
      · have hk : keepCandidate min_area none hd = true := by
          simp [keepCandidate, hge]
        simp only [List.foldl_cons, if_neg h1, List.filter_cons, hk, if_pos]
        rw [ih]
        simp
      · by_cases h2 : hd.area > m
        · have hk : keepCandidate min_area (some m) hd = false := by
            simp [keepCandidate, not_le.mpr h2]
          simp only [List.foldl_cons, if_neg h1, if_pos h2, List.filter_cons, hk]
          exact ih acc
        · have hk : keepCandidate min_area (some m) hd = true := by
            simp [keepCandidate, hge, not_lt.mp h2]
          simp only [List.foldl_cons, if_neg h1, if_neg h2, List.filter_cons, hk, if_pos]
          rw [ih]
          simp

/-! ## Helper lemmas: segment_grid (claim C4) -/

theorem foldl_append_pair {α β γ : Type} (step : List β × List γ → α → List β × List γ)
    (f : α → β) (g : α → γ)
    (hstep : ∀ acc x, step acc x = (acc.1 ++ [f x], acc.2 ++ [g x])) :
    ∀ (l : List α) (acc : List β × List γ),
      l.foldl step acc = (acc.1 ++ l.map f, acc.2 ++ l.map g) := by
  intro l
  induction l with
  | nil => intro acc; simp
  | cons hd tl ih =>
    intro acc
    rw [List.foldl_cons, hstep, ih]
    simp

theorem segment_grid_eq (predictor : Predictor) (image : PlateImage)
    (rows cols : Nat) (padding : Rat) :
    segment_grid predictor image rows cols padding
      = (((List.range rows).flatMap (fun r => (List.range cols).map (fun c => (r, c)))).map
          (fun rc => gridCellMask predictor (preprocess_image image)
            (preprocess_image image).height (preprocess_image image).width
            rows cols padding rc.1 rc.2),
         ((List.range rows).flatMap (fun r => (List.range cols).map (fun c => (r, c)))).map
          (fun rc => cellLabel rc.1 rc.2)) := by
  have h := foldl_append_pair
    (fun (acc : List BMask × List String) (rc : Nat × Nat) =>
      (acc.1 ++ [gridCellMask predictor (preprocess_image image)
          (preprocess_image image).height (preprocess_image image).width
          rows cols padding rc.1 rc.2],
       acc.2 ++ [cellLabel rc.1 rc.2]))
    (fun rc => gridCellMask predictor (preprocess_image image)
        (preprocess_image image).height (preprocess_image image).width
        rows cols padding rc.1 rc.2)
    (fun rc => cellLabel rc.1 rc.2)
    (fun acc rc => rfl)
    ((List.range rows).flatMap (fun r => (List.range cols).map (fun c => (r, c))))
    ([], [])
  simpa using h

theorem cellsList_length (rows cols : Nat) :
    ((List.range rows).flatMap (fun r => (List.range cols).map (fun c => (r, c)))).length
      = rows * cols := by
  induction rows with
  | zero => simp
  | succ n ih => simp [List.range_succ, ih, Nat.succ_mul]

theorem segment_with_prompts_fail (predictor : Predictor)
    (hfail : ∀ img pc pl bx, ∃ m, predictor img pc pl bx = Except.error m)
    (image : PlateImage) (pts : Option (List (List Int))) (pls : Option (List Int))
    (bxs : Option (List Int)) :
    ∃ m, segment_with_prompts predictor image pts pls bxs = Except.error m := by
  have hfail2 : ∀ img pc pl bx r, predictor img pc pl bx = Except.ok r → False := by
    intro img pc pl bx r hok
    obtain ⟨m, hm⟩ := hfail img pc pl bx
    rw [hok] at hm
    exact Except.noConfusion hm
  simp only [segment_with_prompts]
  split
  next m heq => exact ⟨m, rfl⟩
  next results heq => exact (hfail2 _ _ _ _ _ heq).elim

theorem gridCellMask_fail (predictor : Predictor)
    (hfail : ∀ img pc pl bx, ∃ m, predictor img pc pl bx = Except.error m)
    (img : PlateImage) (height width rows cols : Nat) (padding : Rat) (r c : Nat) :
    gridCellMask predictor img height width rows cols padding r c
      = emptyBMask height width := by
  obtain ⟨m, hm⟩ := segment_with_prompts_fail predictor hfail img none none
    (some (gridCellBox height width rows cols padding r c))
  simp only [gridCellMask, hm]

/-! ## Concrete instances used by counterexamples and witnesses -/

def imgGray : PlateImage := ⟨2, 2, none, fun _ _ _ => 7⟩

def imgRGBA : PlateImage := ⟨2, 2, some 4, fun _ _ _ => 7⟩

def maskEx : BMask := ⟨2, 2, fun y x => y == 0 && x == 0⟩

def genEmpty : PlateImage → List MaskCandidate := fun _ => []

def predFail : Predictor := fun _ _ _ _ => Except.error "predict failed"

/-! ## Claim C3 -/

/-- C3 (confirmed).  For every candidate list produced by the underlying
generator and every min_area and optional max_area, segment_everything
returns a candidate with pixel area a iff min_area <= a and (max_area
is unset or a <= max_area) - stated as: the returned masks and scores
are exactly those of the candidates surviving that window, in generator
order - and an empty candidate list yields empty outputs. -/
theorem segment_everything_area_window (generator : PlateImage → List MaskCandidate)
    (image : PlateImage) (min_area : Int) (max_area : Option Int) :
    (segment_everything generator image min_area max_area).1
      = ((generator (preprocess_image image)).filter
          (keepCandidate min_area max_area)).map (fun md => md.segmentation)
    ∧ (segment_everything generator image min_area max_area).2
      = ((generator (preprocess_image image)).filter
          (keepCandidate min_area max_area)).map (fun md => md.stability_score)
    ∧ (generator (preprocess_image image) = [] →
        segment_everything generator image min_area max_area = ([], [])) := by
  have key := segment_everything_foldl min_area max_area
    (generator (preprocess_image image)) ([], [])
  have hE : segment_everything generator image min_area max_area
      = (((generator (preprocess_image image)).filter
            (keepCandidate min_area max_area)).map (fun md => md.segmentation),
         ((generator (preprocess_image image)).filter
            (keepCandidate min_area max_area)).map (fun md => md.stability_score)) := by
    simpa using key
  refine ⟨by rw [hE], by rw [hE], ?_⟩
  intro hnil
  rw [hE, hnil]
  simp

/-- Witness for C3 at a concrete input: an empty candidate list yields
empty outputs. -/
theorem segment_everything_area_window_witness :
    segment_everything genEmpty imgGray 25 none = ([], []) :=
  (segment_everything_area_window genEmpty imgGray 25 none).2.2 rfl

/-! ## Claim C4 -/

/-- C4 (confirmed).  For rows = R >= 1 and cols = C >= 1, segment_grid
returns exactly R*C masks and R*C labels, the labels being precisely
the family chr(65+r) ++ str(c+1) for r in [0,R), c in [0,C) in
row-major order, and when the prompted segmentation call fails for
every cell each cell contributes the all-background mask of the
(preprocessed) image shape. -/
theorem segment_grid_completeness (predictor : Predictor) (image : PlateImage)
    (rows cols : Nat) (padding : Rat) (_hrows : 1 ≤ rows) (_hcols : 1 ≤ cols) :
    (segment_grid predictor image rows cols padding).1.length = rows * cols
    ∧ (segment_grid predictor image rows cols padding).2.length = rows * cols
    ∧ (segment_grid predictor image rows cols padding).2
        = (List.range rows).flatMap
            (fun r => (List.range cols).map (fun c => cellLabel r c))
    ∧ ((∀ img pc pl bx, ∃ m, predictor img pc pl bx = Except.error m) →
        (segment_grid predictor image rows cols padding).1
          = List.replicate (rows * cols)
              (emptyBMask (preprocess_image image).height
                (preprocess_image image).width)) := by
  rw [segment_grid_eq]
  refine ⟨by rw [List.length_map]; exact cellsList_length rows cols,
    by rw [List.length_map]; exact cellsList_length rows cols, ?_, ?_⟩
  · simp [List.map_flatMap, Function.comp_def]
  · intro hfail
    have hlen := cellsList_length rows cols
    calc ((List.range rows).flatMap
            (fun r => (List.range cols).map (fun c => (r, c)))).map
          (fun rc => gridCellMask predictor (preprocess_image image)
            (preprocess_image image).height (preprocess_image image).width
            rows cols padding rc.1 rc.2)
        = ((List.range rows).flatMap
            (fun r => (List.range cols).map (fun c => (r, c)))).map
          (fun _ => emptyBMask (preprocess_image image).height
            (preprocess_image image).width) := by
          apply List.map_congr_left
          intro rc _
          exact gridCellMask_fail predictor hfail _ _ _ _ _ _ _ _
      _ = List.replicate (rows * cols)
            (emptyBMask (preprocess_image image).height
              (preprocess_image image).width) := by
          rw [List.map_const']
          rw [hlen]

/-- Witness for C4 at a concrete input: a 2 x 3 grid with an
always-failing predictor still yields 6 masks, and they are all
all-background. -/
theorem segment_grid_completeness_witness :
    (segment_grid predFail imgGray 2 3 (1 / 20)).1.length = 2 * 3
    ∧ (segment_grid predFail imgGray 2 3 (1 / 20)).1
        = List.replicate (2 * 3)
            (emptyBMask (preprocess_image imgGray).height
              (preprocess_image imgGray).width) :=
  ⟨(segment_grid_completeness predFail imgGray 2 3 (1 / 20) (by decide) (by decide)).1,
   (segment_grid_completeness predFail imgGray 2 3 (1 / 20) (by decide)
      (by decide)).2.2.2 (fun _ _ _ _ => ⟨"predict failed", rfl⟩)⟩

/-! ## Helper lemmas: dilation (claims C8, C10) -/

theorem dilateIter_height (m : BMask) (n : Nat) : (dilateIter m n).height = m.height := by
  induction n with
  | zero => rfl
  | succ n ih => simpa [dilateIter, dilate1] using ih

theorem dilateIter_width (m : BMask) (n : Nat) : (dilateIter m n).width = m.width := by
  induction n with
  | zero => rfl
  | succ n ih => simpa [dilateIter, dilate1] using ih

theorem dilate1_superset (m : BMask) (y x : Nat) (hy : y < m.height)
    (hx : x < m.width) (hp : m.pix y x = true) : (dilate1 m).pix y x = true := by
  show (decide (y < m.height) && decide (x < m.width) && _) = true
  rw [decide_eq_true hy, decide_eq_true hx]
  simp only [Bool.true_and]
  rw [List.any_eq_true]
  refine ⟨y, List.mem_range.mpr hy, ?_⟩
  rw [List.any_eq_true]
  refine ⟨x, List.mem_range.mpr hx, ?_⟩
  simp [hp, Nat.le_succ]

theorem dilateIter_superset (m : BMask) (n : Nat) (y x : Nat) (hy : y < m.height)
    (hx : x < m.width) (hp : m.pix y x = true) : (dilateIter m n).pix y x = true := by
  induction n with
  | zero => exact hp
  | succ n ih =>
    show (dilate1 (dilateIter m n)).pix y x = true
    exact dilate1_superset (dilateIter m n) y x
      (by rw [dilateIter_height]; exact hy)
      (by rw [dilateIter_width]; exact hx) ih

/-! ## Claim C8 -/

/-- C8 (confirmed).  For every binary colony mask, every expansion
distance and every pixel of the mask domain, the mask returned by
find_diffusion_zone is exactly the set difference of the dilated mask
and the original mask, and is therefore disjoint from the input mask:
no pixel is set in both the returned diffusion mask and the colony
mask. -/
theorem find_diffusion_zone_set_difference (image : PlateImage) (m : BMask)
    (e : Int) (y x : Nat) (hy : y < m.height) (hx : x < m.width) :
    (find_diffusion_zone image m e).pix y x
        = ((dilateIter m (diffusionIterations e)).pix y x && !(m.pix y x))
    ∧ ¬((find_diffusion_zone image m e).pix y x = true ∧ m.pix y x = true) := by
  have hmain : (find_diffusion_zone image m e).pix y x
      = ((dilateIter m (diffusionIterations e)).pix y x && !(m.pix y x)) := by
    show decide (u8sub (toU8 ((dilateIter m (diffusionIterations e)).pix y x))
        (toU8 (m.pix y x)) > 0) = _
    cases hp : m.pix y x with
    | true =>
      rw [dilateIter_superset m (diffusionIterations e) y x hy hx hp]
      decide
    | false =>
      cases hq : (dilateIter m (diffusionIterations e)).pix y x <;> decide
  refine ⟨hmain, ?_⟩
  rintro ⟨h1, h2⟩
  rw [hmain, h2] at h1
  simp at h1

/-- Witness for C8 at a concrete input: the top-left pixel of a 2 x 2
mask with one set pixel. -/
theorem find_diffusion_zone_set_difference_witness :
    (find_diffusion_zone imgGray maskEx 15).pix 0 0
        = ((dilateIter maskEx (diffusionIterations 15)).pix 0 0 && !(maskEx.pix 0 0))
    ∧ ¬((find_diffusion_zone imgGray maskEx 15).pix 0 0 = true
        ∧ maskEx.pix 0 0 = true) :=
  find_diffusion_zone_set_difference imgGray maskEx 15 0 0 (by decide) (by decide)

/-! ## Claim C10 -/

/-- C10 (confirmed).  find_diffusion_zone always applies at least one
dilation iteration - the iteration count is max(1, expansion_pixels
floor-divided by 3) - so for every mask its result at any
expansion_pixels <= 3 equals its result at expansion_pixels = 3; there
is no zero-dilation degenerate case. -/
theorem find_diffusion_zone_min_one_iteration (image : PlateImage) (m : BMask)
    (e : Int) (he : e ≤ 3) :
    find_diffusion_zone image m e = find_diffusion_zone image m 3
    ∧ ∀ e2 : Int, 1 ≤ diffusionIterations e2 := by
  have hone : ∀ e2 : Int, 1 ≤ diffusionIterations e2 := by
    intro e2
    unfold diffusionIterations
    have h1 : (1 : Int) ≤ max 1 (Int.fdiv e2 3) := le_max_left _ _
    omega
  have hiter : diffusionIterations e = 1 := by
    unfold diffusionIterations
    have h1 : Int.fdiv e 3 ≤ 1 := by
      rw [Int.fdiv_eq_ediv _ (by norm_num)]
      have h2 := Int.ediv_le_ediv (by norm_num : (0 : Int) < 3) he
      simpa using h2
    have h3 : max 1 (Int.fdiv e 3) = 1 := max_eq_left h1
    rw [h3]
    rfl
  refine ⟨?_, hone⟩
  have h3 : diffusionIterations 3 = 1 := rfl
  simp only [find_diffusion_zone, hiter, h3]

/-- Witness for C10 at a concrete input: expansion 0 behaves as
expansion 3. -/
theorem find_diffusion_zone_min_one_iteration_witness :
    find_diffusion_zone imgGray maskEx 0 = find_diffusion_zone imgGray maskEx 3
    ∧ ∀ e2 : Int, 1 ≤ diffusionIterations e2 :=
  find_diffusion_zone_min_one_iteration imgGray maskEx 0 (by decide)

/-! ## Claim C9 -/

theorem preprocess_image_gray (img : PlateImage) (h : img.channels = none) :
    (preprocess_image img).channels = some 3
    ∧ ∀ y x ch, (preprocess_image img).pix y x ch = img.pix y x 0 := by
  obtain ⟨hh, ww, chs, px⟩ := img
  simp only at h
  subst h
  exact ⟨rfl, fun y x ch => rfl⟩

theorem preprocess_image_many_channels (img : PlateImage) (c : Nat)
    (h : img.channels = some c) (hc : 3 < c) :
    (preprocess_image img).channels = some 3
    ∧ ∀ y x ch, (preprocess_image img).pix y x ch = img.pix y x ch := by
  obtain ⟨hh, ww, chs, px⟩ := img
  simp only at h
  subst h
  have hval : preprocess_image ⟨hh, ww, some c, px⟩ = ⟨hh, ww, some 3, px⟩ := by
    show (if c = 4 then (⟨hh, ww, some 3, px⟩ : PlateImage)
        else if c > 3 then ⟨hh, ww, some 3, px⟩ else ⟨hh, ww, some c, px⟩)
      = ⟨hh, ww, some 3, px⟩
    by_cases h4 : c = 4
    · rw [if_pos h4]
    · rw [if_neg h4, if_pos hc]
  rw [hval]
  exact ⟨rfl, fun y x ch => rfl⟩

/-- C9 (counterexample).  find_diffusion_zone does not normalize its
input image: the source never calls _preprocess_image there and never
reads the image at all.  Concretely, on a 4-channel image - which
normalization would change, as the second conjunct shows - the call
behaves identically to the same call on a 2-dimensional grayscale
image, so no channel normalization influences the operation. -/
theorem find_diffusion_zone_skips_normalization :
    find_diffusion_zone imgRGBA maskEx 15 = find_diffusion_zone imgGray maskEx 15
    ∧ preprocess_image imgRGBA ≠ imgRGBA := by
  refine ⟨rfl, fun h => ?_⟩
  have h2 := congrArg PlateImage.channels h
  exact absurd h2 (by decide)

/-- C9 (amended).  The three prompt-driven operations -
segment_everything, segment_grid and segment_with_prompts - normalize
the input image before use: a 2-dimensional image becomes 3-channel
(plane replicated), a 4-channel image drops its alpha plane, an image
with more than 3 channels keeps its first 3; each of the three depends
on the image only through its normalized form.  find_diffusion_zone
performs no normalization: it ignores its image argument entirely. -/
theorem image_normalization_amended :
    (∀ img : PlateImage, img.channels = none →
        (preprocess_image img).channels = some 3
        ∧ ∀ y x ch, (preprocess_image img).pix y x ch = img.pix y x 0)
    ∧ (∀ (img : PlateImage) (c : Nat), img.channels = some c → 3 < c →
        (preprocess_image img).channels = some 3
        ∧ ∀ y x ch, (preprocess_image img).pix y x ch = img.pix y x ch)
    ∧ (∀ (generator : PlateImage → List MaskCandidate) (img img2 : PlateImage)
        (mn : Int) (mx : Option Int),
        preprocess_image img = preprocess_image img2 →
        segment_everything generator img mn mx
          = segment_everything generator img2 mn mx)
    ∧ (∀ (predictor : Predictor) (img img2 : PlateImage) (rows cols : Nat)
        (padding : Rat),
        preprocess_image img = preprocess_image img2 →
        segment_grid predictor img rows cols padding
          = segment_grid predictor img2 rows cols padding)
    ∧ (∀ (predictor : Predictor) (img img2 : PlateImage)
        (pts : Option (List (List Int))) (pls : Option (List Int))
        (bxs : Option (List Int)),
        preprocess_image img = preprocess_image img2 →
        segment_with_prompts predictor img pts pls bxs
          = segment_with_prompts predictor img2 pts pls bxs)
    ∧ (∀ (img img2 : PlateImage) (m : BMask) (e : Int),
        find_diffusion_zone img m e = find_diffusion_zone img2 m e) := by
  refine ⟨preprocess_image_gray, preprocess_image_many_channels, ?_, ?_, ?_,
    fun img img2 m e => rfl⟩
  · intro generator img img2 mn mx h
    simp only [segment_everything, h]
  · intro predictor img img2 rows cols padding h
    simp only [segment_grid, h]
  · intro predictor img img2 pts pls bxs h
    simp only [segment_with_prompts, h]

/-- Witness for the amended C9 at concrete inputs: the grayscale test
image is normalized to 3 channels, and find_diffusion_zone gives the
same answer on two images of different channel formats. -/
theorem image_normalization_amended_witness :
    ((preprocess_image imgGray).channels = some 3
      ∧ ∀ y x ch, (preprocess_image imgGray).pix y x ch = imgGray.pix y x 0)
    ∧ find_diffusion_zone imgRGBA maskEx 15 = find_diffusion_zone imgGray maskEx 15 :=
  ⟨image_normalization_amended.1 imgGray rfl,
   image_normalization_amended.2.2.2.2.2 imgRGBA imgGray maskEx 15⟩

/-! ## Helper lemmas: the batch loop (claims C1, C2) -/

theorem analyzeLoop_fst (A : Analyzer) (adv : Bool) :
    ∀ (i : Nat) (cs : List Colony),
      (analyzeLoop A adv i cs).1 = cs.map (fun c => (analyze_colony A c adv).1) := by
  intro i cs
  induction cs generalizing i with
  | nil => rfl
  | cons hd tl ih => simp [analyzeLoop, ih]

theorem analyze_fst (A : Analyzer) (colonies : List Colony) (adv : Bool) :
    (analyze A colonies adv).1 = colonies.map (fun c => (analyze_colony A c adv).1) := by
  cases colonies with
  | nil => rfl
  | cons hd tl =>
    show (analyzeLoop A adv 0 (hd :: tl)).1 = _
    exact analyzeLoop_fst A adv 0 (hd :: tl)

theorem analyzeLoop_err_mem (A : Analyzer) (adv : Bool) :
    ∀ (cs : List Colony) (i k : Nat) (c : Colony) (m : String),
      cs[k]? = some c →
      (analyze_colony A c adv).2.2 = some m →
      LogEntry.errorAnalyze (i + k) m ∈ (analyzeLoop A adv i cs).2 := by
  intro cs
  induction cs with
  | nil => intro i k c m hk _; simp at hk
  | cons hd tl ih =>
    intro i k c m hk herr
    cases k with
    | zero =>
      have hc : hd = c := by simpa using hk
      subst hc
      simp [analyzeLoop, herr]
    | succ k2 =>
      have hk2 : tl[k2]? = some c := by simpa using hk
      have hmem := ih (i + 1) k2 c m hk2 herr
      have harith : i + 1 + k2 = i + (k2 + 1) := by omega
      rw [harith] at hmem
      simp only [analyzeLoop, List.mem_append]
      exact Or.inr hmem

/-! ## Concrete analyzer instances -/

def exBadAnalyzer : Analyzer :=
  { extractors := [fun _ _ => Except.error "boom"],
    calculate_scores := fun _ => Except.ok [],
    classify_phenotype := fun _ => Except.ok [],
    hasSam := false,
    advCompute := fun _ _ => Except.error "unused" }

def exBenignAnalyzer : Analyzer :=
  { extractors := [],
    calculate_scores := fun _ => Except.ok [],
    classify_phenotype := fun _ => Except.ok [],
    hasSam := false,
    advCompute := fun _ _ => Except.error "unused" }

def exColonyNoDicts : Colony :=
  { id := some "c1", img := some 0, mask := some 0, features := none, scores := none,
    phenotype := none, quality_score := none, cross_boundary := none,
    overlapping_wells := none, advanced_masks := none, extra := [] }

/-! ## Claim C2 -/

/-- C2 (confirmed).  For every input sequence of colony records,
analyze returns a sequence of exactly the same length with the
processed record for input position i at output position i, and the
empty input yields the empty output with the no-colonies warning and
no raised error. -/
theorem analyze_batch_shape (A : Analyzer) (adv : Bool) :
    (∀ colonies : List Colony,
      (analyze A colonies adv).1.length = colonies.length
      ∧ ∀ i : Nat, (analyze A colonies adv).1[i]?
          = colonies[i]?.map (fun c => (analyze_colony A c adv).1))
    ∧ analyze A [] adv = ([], [LogEntry.warnNoColonies]) := by
  refine ⟨fun colonies => ⟨?_, fun i => ?_⟩, rfl⟩
  · rw [analyze_fst, List.length_map]
  · rw [analyze_fst, List.getElem?_map]

/-! ## Claim C1 -/

/-- C1 (counterexample).  The record appended by analyze after a
per-item failure is not the original unmodified record: analyze_colony
mutates the record dict in place before the failing step, and analyze
appends that same mutated dict.  Here the single extractor raises, yet
the output record differs from the input record (its features, scores
and phenotype keys were created). -/
theorem analyze_failure_returns_mutated_record :
    (analyze_colony exBadAnalyzer exColonyNoDicts false).2.2 = some "boom"
    ∧ (analyze exBadAnalyzer [exColonyNoDicts] false).1 ≠ [exColonyNoDicts] := by
  refine ⟨rfl, ?_⟩
  decide

/-- C1 (amended).  If analyze_colony raises for the record at position
i, analyze logs the error with that index and appends, at position i,
the record in the state analyze_colony left it (the same dict, carrying
every mutation applied before the failure); every other position holds
its per-item result and the batch neither shrinks nor aborts. -/
theorem analyze_failure_isolation (A : Analyzer) (colonies : List Colony)
    (adv : Bool) (i : Nat) (c : Colony) (m : String)
    (hc : colonies[i]? = some c)
    (herr : (analyze_colony A c adv).2.2 = some m) :
    (∀ j : Nat, (analyze A colonies adv).1[j]?
        = colonies[j]?.map (fun cj => (analyze_colony A cj adv).1))
    ∧ LogEntry.errorAnalyze i m ∈ (analyze A colonies adv).2 := by
  constructor
  · intro j
    rw [analyze_fst, List.getElem?_map]
  · have hne : colonies ≠ [] := by
      intro hnil
      rw [hnil] at hc
      simp at hc
    have hmem := analyzeLoop_err_mem A adv colonies 0 i c m hc herr
    rw [Nat.zero_add] at hmem
    cases colonies with
    | nil => exact absurd rfl hne
    | cons hd tl =>
      show LogEntry.errorAnalyze i m ∈ (analyzeLoop A adv 0 (hd :: tl)).2 ++ _
      exact List.mem_append.mpr (Or.inl hmem)

/-- Witness for the amended C1 at a concrete input: a one-record batch
whose extractor raises. -/
theorem analyze_failure_isolation_witness :
    (∀ j : Nat, (analyze exBadAnalyzer [exColonyNoDicts] false).1[j]?
        = [exColonyNoDicts][j]?.map
            (fun cj => (analyze_colony exBadAnalyzer cj false).1))
    ∧ LogEntry.errorAnalyze 0 "boom" ∈ (analyze exBadAnalyzer [exColonyNoDicts] false).2 :=
  analyze_failure_isolation exBadAnalyzer [exColonyNoDicts] false 0 exColonyNoDicts
    "boom" rfl rfl

/-! ## Claim C6 -/

/-- C6 (confirmed).  A record lacking img or mask (with features,
scores and phenotype initially absent) is returned by analyze_colony
with those three keys existing as empty mappings, every other field
unchanged, the missing-data warning logged, and no error raised. -/
theorem analyze_colony_missing_data (A : Analyzer) (adv : Bool) (colony : Colony)
    (hmiss : colony.img = none ∨ colony.mask = none)
    (hf : colony.features = none) (hs : colony.scores = none)
    (hp : colony.phenotype = none) :
    analyze_colony A colony adv =
      ({ colony with features := some [], scores := some [], phenotype := some [] },
       [LogEntry.warnMissingData (colony.id.getD "unknown")], none) := by
  have hED : ensureDicts colony
      = { colony with features := some [], scores := some [], phenotype := some [] } := by
    simp [ensureDicts, hf, hs, hp]
  rcases hmiss with h | h
  · simp [analyze_colony, hED, h]
  · rcases hI : colony.img with _ | im
    · simp [analyze_colony, hED, hI]
    · simp [analyze_colony, hED, hI, h]

def exColonyNoMask : Colony :=
  { id := some "m1", img := some 0, mask := none, features := none, scores := none,
    phenotype := none, quality_score := none, cross_boundary := none,
    overlapping_wells := none, advanced_masks := none,
    extra := [("well", PyVal.str "A1")] }

/-- Witness for C6 at a concrete input: a record with an image but no
mask and one extra field. -/
theorem analyze_colony_missing_data_witness :
    analyze_colony exBenignAnalyzer exColonyNoMask false =
      ({ exColonyNoMask with
          features := some [], scores := some [], phenotype := some [] },
       [LogEntry.warnMissingData (exColonyNoMask.id.getD "unknown")], none) :=
  analyze_colony_missing_data exBenignAnalyzer false exColonyNoMask
    (Or.inr rfl) rfl rfl rfl

/-! ## Claim C7 -/

def exLowQualityNoId : Colony :=
  { id := none, img := some 0, mask := some 1, features := none, scores := none,
    phenotype := none, quality_score := some (1 / 5 : Rat), cross_boundary := none,
    overlapping_wells := none, advanced_masks := none, extra := [] }

/-- C7 (code bug).  The claim says the quality check only logs and
never raises, for every record shape including records without an id
field.  The code reads quality_score with default 0.5 and compares it
with 0.3 as claimed, but the low-quality warning message interpolates
colony[id] with bracket access, so a record with quality_score below
0.3 and no id key raises KeyError inside the check; the analogous
missing-data warning uses colony.get(id, unknown), showing the
intended behavior.  The first conjunct evaluates the embedded code at
the failing input; the second shows the same record with an id present
passes the check without an error. -/
theorem quality_check_keyerror_on_missing_id :
    (analyze_colony exBenignAnalyzer exLowQualityNoId false).2.2 = some "KeyError: id"
    ∧ (analyze_colony exBenignAnalyzer
        { exLowQualityNoId with id := some "c9" } false).2.2 = none := by
  have hq : ((5 : Rat)⁻¹) < 3 / 10 := by norm_num
  constructor
  · simp [analyze_colony, exBenignAnalyzer, exLowQualityNoId, ensureDicts,
      extractLoop, dictUpdate, qualityStep, crossBoundaryStep, hq]
  · simp [analyze_colony, exBenignAnalyzer, exLowQualityNoId, ensureDicts,
      extractLoop, dictUpdate, qualityStep, crossBoundaryStep, hq]

/-! ## Helper lemmas: the per-item pipeline (claim C5) -/

@[simp] theorem ensureDicts_img (c : Colony) : (ensureDicts c).img = c.img := rfl

@[simp] theorem ensureDicts_mask (c : Colony) : (ensureDicts c).mask = c.mask := rfl

theorem pad_preserves (A : Analyzer) (c : Colony) :
    ((perform_advanced_analysis A c).1).cross_boundary = c.cross_boundary
    ∧ ((perform_advanced_analysis A c).1).overlapping_wells = c.overlapping_wells := by
  unfold perform_advanced_analysis
  rcases hI : c.img with _ | img
  · simp
  · rcases hM : c.mask with _ | mask
    · simp
    · rcases hA : A.advCompute img mask with m | dr <;> simp [hA]

theorem crossBoundaryStep_sets (c : Colony) (h : c.cross_boundary = some true) :
    dictGet ((crossBoundaryStep c).phenotype.getD []) "special_case"
        = some (PyVal.str "cross_boundary")
    ∧ dictGet ((crossBoundaryStep c).phenotype.getD []) "affected_wells"
        = some (PyVal.str (if (c.overlapping_wells.getD []).isEmpty then "none"
            else String.intercalate ", " (c.overlapping_wells.getD []))) := by
  unfold crossBoundaryStep
  rw [h]
  simp only [Option.getD_some, if_true]
  constructor
  · rw [dictGet_insert_ne _ _ _ _ (by decide), dictGet_insert_same]
  · rw [dictGet_insert_same]

theorem analyze_colony_success_shape (A : Analyzer) (colony : Colony) (adv : Bool)
    (im : ImgData) (mk : MaskData)
    (himg : colony.img = some im) (hmask : colony.mask = some mk) :
    (∃ m, (analyze_colony A colony adv).2.2 = some m)
    ∨ (∃ c4 : Colony, (analyze_colony A colony adv).1 = crossBoundaryStep c4
        ∧ (analyze_colony A colony adv).2.2 = none
        ∧ c4.cross_boundary = colony.cross_boundary
        ∧ c4.overlapping_wells = colony.overlapping_wells) := by
  simp only [analyze_colony, ensureDicts_img, ensureDicts_mask, himg, hmask]
  split
  next m heq => exact Or.inl ⟨m, rfl⟩
  next heqf =>
    split
    next m heq => exact Or.inl ⟨m, rfl⟩
    next sc heq =>
      split
      next m heq2 => exact Or.inl ⟨m, rfl⟩
      next ph heq2 =>
        split
        next m heq3 => exact Or.inl ⟨m, rfl⟩
        next heq3 =>
          refine Or.inr ⟨_, rfl, rfl, ?_, ?_⟩
          · by_cases hAdv : (adv && A.hasSam) = true
            · rw [if_pos hAdv, (pad_preserves A _).1]
              rfl
            · rw [if_neg hAdv]
              rfl
          · by_cases hAdv : (adv && A.hasSam) = true
            · rw [if_pos hAdv, (pad_preserves A _).2]
              rfl
            · rw [if_neg hAdv]
              rfl

/-! ## Claim C5 -/

/-- C5 (confirmed).  For every record with img and mask present whose
per-item pipeline runs to completion without an error, if the record
was flagged cross_boundary then the returned phenotype carries
special_case = cross_boundary and affected_wells = the overlapping
wells joined with comma-space, or the literal none when that sequence
is empty or absent. -/
theorem analyze_colony_cross_boundary (A : Analyzer) (colony : Colony) (adv : Bool)
    (im : ImgData) (mk : MaskData)
    (himg : colony.img = some im) (hmask : colony.mask = some mk)
    (hok : (analyze_colony A colony adv).2.2 = none)
    (hcb : colony.cross_boundary = some true) :
    dictGet (((analyze_colony A colony adv).1).phenotype.getD []) "special_case"
        = some (PyVal.str "cross_boundary")
    ∧ dictGet (((analyze_colony A colony adv).1).phenotype.getD []) "affected_wells"
        = some (PyVal.str
            (if (colony.overlapping_wells.getD []).isEmpty then "none"
             else String.intercalate ", " (colony.overlapping_wells.getD []))) := by
  rcases analyze_colony_success_shape A colony adv im mk himg hmask with
    ⟨m, hm⟩ | ⟨c4, h1, _h2, h3, h4⟩
  · rw [hok] at hm
    exact Option.noConfusion hm
  · rw [h1]
    have hsets := crossBoundaryStep_sets c4 (by rw [h3, hcb])
    rw [h4] at hsets
    exact hsets

def exColonyCross : Colony :=
  { id := some "x1", img := some 0, mask := some 1, features := none, scores := none,
    phenotype := none, quality_score := some 1, cross_boundary := some true,
    overlapping_wells := some ["A1", "A2"], advanced_masks := none, extra := [] }

/-- Witness for C5 at a concrete input: a cross-boundary record with
overlapping wells A1 and A2 yields affected_wells joined with
comma-space. -/
theorem analyze_colony_cross_boundary_witness :
    dictGet (((analyze_colony exBenignAnalyzer exColonyCross false).1).phenotype.getD [])
        "special_case" = some (PyVal.str "cross_boundary")
    ∧ dictGet (((analyze_colony exBenignAnalyzer exColonyCross false).1).phenotype.getD [])
        "affected_wells" = some (PyVal.str
          (if (exColonyCross.overlapping_wells.getD []).isEmpty then "none"
           else String.intercalate ", " (exColonyCross.overlapping_wells.getD []))) := by
  have hok : (analyze_colony exBenignAnalyzer exColonyCross false).2.2 = none := by
    have hq : ¬((1 : Rat) < 3 / 10) := by norm_num
    simp [analyze_colony, exBenignAnalyzer, exColonyCross, ensureDicts, extractLoop,
      dictUpdate, qualityStep, crossBoundaryStep, hq]
  exact analyze_colony_cross_boundary exBenignAnalyzer exColonyCross false 0 1
    rfl rfl hok rfl
